import Mathlib

/-!
Verification development for the opensky-timeclock repository.

The definitions below are a shallow embedding of the core time-entry logic:
* `src/backend/routes/time.js` — clock-in/clock-out, manual entry creation,
  entry update (with the fallback-flag catch path), entry deletion;
* the admin routes file — approval/denial, payroll aggregation, server-side
  pay-period window computation;
* `src/frontend/src/types/index.ts` — `PayPeriodCalculator`;
* `src/frontend/src/components/TimeEntryModal.tsx` — client-side form
  validation.

Timestamps are modelled as integers (milliseconds since the epoch, mirroring
JavaScript `Date.getTime()`); SQL `NULL`-able columns are modelled with
`Option`; JavaScript numbers used in payroll arithmetic are modelled as
rationals. HTTP parsing, authentication and the database driver are outside
the embedded core: handlers receive already-parsed, authenticated inputs,
exactly as the SQL-visible logic of each route does.
-/

inductive ApprovalStatus where
  | pending
  | approved
  | denied
deriving DecidableEq, Repr

/-- The two decisions an admin can submit to the approval route
(`status` must be `'approved'` or `'denied'`; anything else is rejected
before the logic modelled here runs). -/
inductive Decision where
  | approved
  | denied
deriving DecidableEq, Repr

def Decision.toStatus : Decision → ApprovalStatus
  | .approved => .approved
  | .denied => .denied

/-- One row of the `time_entries` table.  `clock_out`, `is_manual` and
`approval_status` are nullable columns in the schema, hence `Option`. -/
structure Entry where
  id : Nat
  userId : Nat
  clockIn : Int
  clockOut : Option Int
  isManual : Option Bool
  approvalStatus : Option ApprovalStatus
deriving DecidableEq, Repr

inductive AuditAction where
  | create
  | update
  | approve
  | deny
  | fallbackFlag
deriving DecidableEq, Repr

/-- One row of the `time_entry_audit` table, with the columns the routes
actually populate. -/
structure AuditRecord where
  timeEntryId : Nat
  userId : Nat
  action : AuditAction
  previousClockIn : Option Int
  previousClockOut : Option Int
  newClockIn : Option Int
  newClockOut : Option Int
  previousApprovalStatus : Option ApprovalStatus
  newApprovalStatus : Option ApprovalStatus
deriving DecidableEq, Repr

/-- The persistent state the routes read and write: the `time_entries`
rows, the append-only `time_entry_audit` rows, and the sequence used for
fresh `SERIAL` ids. -/
structure Db where
  entries : List Entry
  audits : List AuditRecord
  nextId : Nat
deriving DecidableEq, Repr

/-- Outward error codes of the routes (codes without an explicit `code:`
field in the JSON response are identified by their message). -/
inductive ErrCode where
  | ALREADY_ACTIVE
  | NO_ACTIVE_ENTRY
  | CLOCK_ORDER
  | OVERLAP
  | ACTIVE_EDIT_FORBIDDEN
  | ALREADY_REVIEWED
  | NOT_FOUND
  | CANNOT_DELETE_ACTIVE
deriving DecidableEq, Repr

inductive RouteResult (α : Type) where
  | ok (value : α)
  | err (code : ErrCode)
deriving DecidableEq, Repr

def RouteResult.isOk {α : Type} : RouteResult α → Bool
  | .ok _ => true
  | .err _ => false

/-- `SELECT id FROM time_entries WHERE user_id = $1 AND clock_out IS NULL`
returned at least one row. -/
def hasActiveEntry (db : Db) (userId : Nat) : Bool :=
  db.entries.any fun e => e.userId == userId && e.clockOut.isNone

/-- `POST /clock-in` (src/backend/routes/time.js lines 11-48): reject when an
active entry exists, otherwise insert an automatic, auto-approved entry with
`clock_out = NULL`.  No audit row is inserted by this route. -/
def clockIn (userId : Nat) (now : Int) (db : Db) : RouteResult Entry × Db :=
  if hasActiveEntry db userId then
    (.err .ALREADY_ACTIVE, db)
  else
    let e : Entry := ⟨db.nextId, userId, now, none, some false, some .approved⟩
    (.ok e, ⟨db.entries ++ [e], db.audits, db.nextId + 1⟩)

/-- `POST /clock-out` (lines 51-90): find the active entry, set its
`clock_out` to the current time.  No audit row is inserted by this route. -/
def clockOut (userId : Nat) (now : Int) (db : Db) : RouteResult Entry × Db :=
  match db.entries.find? (fun e => e.userId == userId && e.clockOut.isNone) with
  | none => (.err .NO_ACTIVE_ENTRY, db)
  | some e =>
    let updated : Entry := { e with clockOut := some now }
    (.ok updated,
      { db with entries := db.entries.map fun x => if x.id == e.id then updated else x })

/-- `COALESCE(clock_out, NOW())`. -/
def effectiveEnd (e : Entry) (now : Int) : Int :=
  e.clockOut.getD now

/-- SQL `x BETWEEN lo AND hi` (inclusive on both ends). -/
def between (x lo hi : Int) : Bool :=
  decide (lo ≤ x ∧ x ≤ hi)

/-- The four-directional interval test shared by the create and update
overlap queries. -/
def overlapsInterval (cin cout : Int) (e : Entry) (now : Int) : Bool :=
  between cin e.clockIn (effectiveEnd e now) ||
  between cout e.clockIn (effectiveEnd e now) ||
  between e.clockIn cin cout ||
  between (effectiveEnd e now) cin cout

/-- The status filter of the `POST /entry` overlap query (lines 199-208):
`approval_status IS NULL OR approval_status = 'approved'`. -/
def createBlockingStatus (e : Entry) : Bool :=
  e.approvalStatus == none || e.approvalStatus == some .approved

/-- `POST /entry` (lines 187-242): order check, overlap query restricted to
NULL/approved entries of the same user, insert of a pending manual entry,
then exactly one `create` audit row (which records only the new values). -/
def createManualEntry (userId : Nat) (cin cout : Int) (now : Int) (db : Db) :
    RouteResult Entry × Db :=
  if cout ≤ cin then
    (.err .CLOCK_ORDER, db)
  else if db.entries.any (fun e =>
      e.userId == userId && createBlockingStatus e && overlapsInterval cin cout e now) then
    (.err .OVERLAP, db)
  else
    let e : Entry := ⟨db.nextId, userId, cin, some cout, some true, some .pending⟩
    let a : AuditRecord :=
      ⟨db.nextId, userId, .create, none, none, some cin, some cout, none, some .pending⟩
    (.ok e, ⟨db.entries ++ [e], db.audits ++ [a], db.nextId + 1⟩)

/-- The `PUT /entry/:id` ordering test (line 280): fires only when a
clock-out was submitted and it is not strictly after the clock-in. -/
def clockOrderViolated (cin : Int) (cout : Option Int) : Bool :=
  match cout with
  | some c => decide (c ≤ cin)
  | none => false

/-- The `PUT /entry/:id` overlap queries (lines 284-310).  Both branches
exclude the entry being updated (`id != $2`) and apply **no**
`approval_status` filter.  The clock-out-less branch checks the submitted
clock-in against each interval and against still-open earlier entries. -/
def updateOverlapExists (userId entryId : Nat) (cin : Int) (cout : Option Int)
    (now : Int) (db : Db) : Bool :=
  match cout with
  | some c =>
    db.entries.any fun e =>
      !(e.id == entryId) && e.userId == userId && overlapsInterval cin c e now
  | none =>
    db.entries.any fun e =>
      !(e.id == entryId) && e.userId == userId &&
        (between cin e.clockIn (effectiveEnd e now) ||
          (decide (e.clockIn ≤ cin) && e.clockOut.isNone))

/-- `timesChanged` of `PUT /entry/:id` (lines 326-328). -/
def timesChanged (existing : Entry) (cin : Int) (cout : Option Int) : Bool :=
  decide (existing.clockIn ≠ cin) ||
  ((existing.clockOut.isSome && cout.isSome && decide (existing.clockOut ≠ cout)) ||
    decide (existing.clockOut.isSome ≠ cout.isSome))

/-- `shouldResetToPending` of `PUT /entry/:id` (line 333).  JavaScript
truthiness: a NULL `is_manual` behaves like `false`. -/
def shouldResetToPending (existing : Entry) (cin : Int) (cout : Option Int) : Bool :=
  !(existing.isManual == some true) ||
  (timesChanged existing cin cout && decide (existing.approvalStatus ≠ some .pending)) ||
  ((existing.isManual == some true) &&
    (existing.approvalStatus == some .approved || existing.approvalStatus == some .denied))

/-- `PUT /entry/:id` happy path (lines 245-406): ownership lookup, order
check, overlap check, active-entry check, reset-to-pending policy, the
no-op short circuit, then the row update plus exactly one `update` audit
row. -/
def updateEntry (userId entryId : Nat) (cin : Int) (cout : Option Int)
    (now : Int) (db : Db) : RouteResult Entry × Db :=
  match db.entries.find? (fun e => e.id == entryId && e.userId == userId) with
  | none => (.err .NOT_FOUND, db)
  | some existing =>
    if clockOrderViolated cin cout then
      (.err .CLOCK_ORDER, db)
    else if updateOverlapExists userId entryId cin cout now db then
      (.err .OVERLAP, db)
    else if existing.clockOut.isNone then
      (.err .ACTIVE_EDIT_FORBIDDEN, db)
    else
      let reset := shouldResetToPending existing cin cout
      let nextApprovalStatus :=
        if reset then ApprovalStatus.pending else existing.approvalStatus.getD .pending
      let nextIsManual := if reset then some true else existing.isManual
      if !timesChanged existing cin cout && (existing.isManual == some true) &&
          (existing.approvalStatus == some .pending) then
        (.ok existing, db)
      else
        let updated : Entry :=
          { existing with
              clockIn := cin, clockOut := cout,
              approvalStatus := some nextApprovalStatus, isManual := nextIsManual }
        let a : AuditRecord :=
          ⟨entryId, userId, .update, some existing.clockIn, existing.clockOut,
            some cin, cout, existing.approvalStatus, some nextApprovalStatus⟩
        (.ok updated,
          { db with
              entries := db.entries.map fun x => if x.id == entryId then updated else x,
              audits := db.audits ++ [a] })

/-- The `catch` fallback of `PUT /entry/:id` (lines 409-453): re-verify
ownership, then `UPDATE time_entries SET approval_status = 'pending',
is_manual = COALESCE(is_manual, TRUE)` and insert one `fallback-flag` audit
row.  The verification query selects only `id, clock_in, clock_out`, so the
audit's previous approval status is always recorded as NULL. -/
def fallbackFlag (userId entryId : Nat) (db : Db) : RouteResult Entry × Db :=
  match db.entries.find? (fun e => e.id == entryId && e.userId == userId) with
  | none => (.err .NOT_FOUND, db)
  | some verify =>
    let flagged : Entry :=
      { verify with
          approvalStatus := some .pending,
          isManual := some (verify.isManual.getD true) }
    let a : AuditRecord :=
      ⟨entryId, userId, .fallbackFlag, some verify.clockIn, verify.clockOut,
        some flagged.clockIn, flagged.clockOut, none, some .pending⟩
    (.ok flagged,
      { db with
          entries := db.entries.map fun x => if x.id == entryId then flagged else x,
          audits := db.audits ++ [a] })

/-- `DELETE /entry/:id` (lines 138-152): ownership check, refuse to delete
an active entry, then delete the row.  No audit row is inserted. -/
def deleteEntry (userId entryId : Nat) (db : Db) : RouteResult Unit × Db :=
  match db.entries.find? (fun e => e.id == entryId && e.userId == userId) with
  | none => (.err .NOT_FOUND, db)
  | some _ =>
    if db.entries.any (fun e => e.id == entryId && e.clockOut.isNone) then
      (.err .CANNOT_DELETE_ACTIVE, db)
    else
      (.ok (), { db with entries := db.entries.filter fun e => !(e.id == entryId) })

/-- `PATCH /entry/:id/approval` from the admin routes file (lines 127-187):
lookup restricted to `is_manual = TRUE`, the non-atomic pending re-check,
the unconditional status update, then exactly one approve/deny audit row. -/
def approveOrDeny (adminId entryId : Nat) (decision : Decision) (db : Db) :
    RouteResult Entry × Db :=
  match db.entries.find? (fun e => e.id == entryId && e.isManual == some true) with
  | none => (.err .NOT_FOUND, db)
  | some e =>
    if e.approvalStatus ≠ some .pending then
      (.err .ALREADY_REVIEWED, db)
    else
      let updated : Entry := { e with approvalStatus := some decision.toStatus }
      let a : AuditRecord :=
        ⟨entryId, adminId,
          (match decision with | .approved => .approve | .denied => .deny),
          some e.clockIn, e.clockOut, some e.clockIn, e.clockOut,
          some .pending, some decision.toStatus⟩
      (.ok updated,
        { db with
            entries := db.entries.map fun x => if x.id == entryId then updated else x,
            audits := db.audits ++ [a] })

/-!
### Interleaving model of two concurrent approval requests

The approval route performs its pending check (`SELECT id, approval_status
...`) and its decision write (`UPDATE time_entries SET approval_status =
...`, with no `WHERE approval_status = 'pending'` clause) as two separate
queries with no transaction around them.  Two concurrent requests on the
same entry therefore interleave at query granularity.  The model below
tracks only the fields the race touches: the entry's approval status and,
per request, whether its check passed and how it finished
(`some true` = responded success, `some false` = responded
`ALREADY_REVIEWED`, `none` = still running).
-/

inductive RaceEvent where
  | check1
  | write1
  | check2
  | write2
deriving DecidableEq, Repr

structure RaceState where
  status : Option ApprovalStatus
  passed1 : Bool
  passed2 : Bool
  done1 : Option Bool
  done2 : Option Bool
deriving DecidableEq, Repr

/-- One query of one of the two concurrent approval requests.  A check
that sees a non-pending status finishes its request with
`ALREADY_REVIEWED`; a write runs only if that request's check passed, and
unconditionally stores the decision. -/
def raceStep (d1 d2 : Decision) (s : RaceState) : RaceEvent → RaceState
  | .check1 =>
    if s.status == some .pending then { s with passed1 := true }
    else { s with done1 := some false }
  | .write1 =>
    if s.passed1 then { s with status := some d1.toStatus, done1 := some true } else s
  | .check2 =>
    if s.status == some .pending then { s with passed2 := true }
    else { s with done2 := some false }
  | .write2 =>
    if s.passed2 then { s with status := some d2.toStatus, done2 := some true } else s

/-- Run two concurrent approval requests on a pending entry under a given
interleaving of their queries. -/
def runRace (d1 d2 : Decision) (sched : List RaceEvent) : RaceState :=
  sched.foldl (raceStep d1 d2) ⟨some .pending, false, false, none, none⟩

/-!
### Payroll aggregation (admin routes, `GET /payroll/period-hours`)
-/

/-- The per-user summary assembled by the payroll loop (pre-display
rounding). -/
structure PayrollSummary where
  totalHours : ℚ
  regularHours : ℚ
  overtimeHours : ℚ
  estGross : ℚ
  hourlyRate : ℚ
  overtimeEnabled : Bool
deriving DecidableEq, Repr

/-- The regular/overtime split and gross-pay estimate of the payroll route
(admin routes lines 417-423).  The overtime multiplier is the hardcoded
`1.5`; JavaScript numbers are modelled as rationals. -/
def computePayroll (totalHours : ℚ) (overtimeEnabled : Bool)
    (overtimeThreshold : ℚ) (rate : ℚ) : PayrollSummary :=
  let regularHours := if overtimeEnabled then min totalHours overtimeThreshold else totalHours
  let overtimeHours := if overtimeEnabled then max 0 (totalHours - overtimeThreshold) else 0
  let estGross := regularHours * rate + overtimeHours * rate * (3 / 2)
  ⟨totalHours, regularHours, overtimeHours, estGross, rate, overtimeEnabled⟩

/-!
### Calendar arithmetic

JavaScript `Date` objects constructed from local calendar fields follow the
proleptic Gregorian calendar.  A timestamp is modelled as a day number
(days since 1970-01-01) plus milliseconds within the day; `daysFromCivil`
is the standard Gregorian civil-date-to-day-number conversion, and `jsDay`
adds the `new Date(year, month, day)` normalization of out-of-range
0-based months and day 0.
-/

/-- Day number (days since 1970-01-01) of the Gregorian date `y-m-d` with
1-based month; `d` may be any integer (day 0 is the last day of the
previous month, as in JavaScript `Date`). -/
def daysFromCivil (y m d : Int) : Int :=
  let y' := if m ≤ 2 then y - 1 else y
  let m' := if m ≤ 2 then m + 9 else m - 3
  365 * y' + y' / 4 - y' / 100 + y' / 400 + (153 * m' + 2) / 5 + d - 1 - 719468

/-- `new Date(y, m, d)` with a 0-based month, normalizing month overflow
the way JavaScript does. -/
def jsDay (y m d : Int) : Int :=
  daysFromCivil (y + m / 12) (m % 12 + 1) d

/-- `Date.getDay()`: 0 = Sunday.  Day 0 (1970-01-01) was a Thursday. -/
def dayOfWeek (day : Int) : Int :=
  (day + 4) % 7

def isLeap (y : Int) : Bool :=
  y % 4 == 0 && (y % 100 != 0 || y % 400 == 0)

/-- Length in days of 0-based month `m` of year `y`. -/
def monthLength (y m : Int) : Int :=
  if m = 1 then (if isLeap y then 29 else 28)
  else if m = 0 ∨ m = 2 ∨ m = 4 ∨ m = 6 ∨ m = 7 ∨ m = 9 ∨ m = 11 then 31
  else 30

/-- A local timestamp: day number plus milliseconds within the day. -/
structure LocalDT where
  day : Int
  ms : Int
deriving DecidableEq, Repr

/-- A resolved pay period with inclusive instant bounds. -/
structure PayPeriodL where
  startDT : LocalDT
  endDT : LocalDT
deriving DecidableEq, Repr

/-- `PayPeriodCalculator.getWeeklyPeriod` (frontend types/index.ts lines
123-137): back up to the Sunday of the reference date's week at
00:00:00.000, end six days later at 23:59:59.999. -/
def getWeeklyPeriod (d : LocalDT) : PayPeriodL :=
  let start := d.day - dayOfWeek d.day
  ⟨⟨start, 0⟩, ⟨start + 6, 86399999⟩⟩

/-- `PayPeriodCalculator.getBiMonthlyPeriod` (lines 169-192), with the
reference date given by its local calendar fields (`y`, 0-based month `m`,
day of month `dom`). -/
def getBiMonthlyPeriod (y m dom : Int) : PayPeriodL :=
  if dom ≤ 15 then
    ⟨⟨jsDay y m 1, 0⟩, ⟨jsDay y m 15, 86399999⟩⟩
  else
    ⟨⟨jsDay y m 16, 0⟩, ⟨jsDay y (m + 1) 0, 86399999⟩⟩

/-- `PayPeriodCalculator.getMonthlyPeriod` (lines 194-206). -/
def getMonthlyPeriod (y m : Int) : PayPeriodL :=
  ⟨⟨jsDay y m 1, 0⟩, ⟨jsDay y (m + 1) 0, 86399999⟩⟩

inductive Schedule where
  | weekly
  | biweekly
  | bimonthly
  | monthly
deriving DecidableEq, Repr

/-- The server-side pay-period window of `GET /payroll/period-hours`
(admin routes lines 371-405): weeks aligned to Monday
(`diffToMonday = (getDay() + 6) % 7`), all bounds at local midnight, the
end bound exclusive (the hours query uses `clock_in >= start AND
clock_in < end`).  The `switch` has cases only for `'weekly'` and
`'monthly'`; every other schedule value — including `'bi-monthly'` — takes
the `'bi-weekly'` default branch.  Returns (startDay, endDay). -/
def serverPeriodRange (schedule : Schedule) (y m dom : Int) : Int × Int :=
  let nowDay := jsDay y m dom
  let weekStart := nowDay - (dayOfWeek nowDay + 6) % 7
  match schedule with
  | .weekly => (weekStart, weekStart + 7)
  | .monthly => (jsDay y m 1, jsDay y (m + 1) 1)
  | _ => (weekStart - 7, weekStart + 7)

/-- The server-side overtime threshold chosen alongside the period window
(40 weekly, 160 monthly, 80 for the bi-weekly default). -/
def serverOvertimeThreshold (schedule : Schedule) : ℚ :=
  match schedule with
  | .weekly => 40
  | .monthly => 160
  | _ => 80

/-!
### Frontend form validation (`TimeEntryModal.validateForm`)
-/

inductive FormError where
  | clockInRequired
  | clockOutRequired
  | clockOrder
  | exceeds24Hours
deriving DecidableEq, Repr

/-- `validateForm` of TimeEntryModal.tsx (lines 74-97), over already-picked
`Date` values in milliseconds.  Returns the field errors it records; the
form submits only when this list is empty. -/
def timeEntryFormErrors (cin cout : Option Int) : List FormError :=
  (if cin.isNone then [FormError.clockInRequired] else []) ++
  (match cout with
   | none => [FormError.clockOutRequired]
   | some c =>
     match cin with
     | none => []
     | some i =>
       if c ≤ i then [FormError.clockOrder]
       else if (c - i : Int) > 24 * 3600000 then [FormError.exceeds24Hours]
       else [])

/-- The form submits (calls `onSubmit`) iff validation recorded no
errors. -/
def timeEntryFormValid (cin cout : Option Int) : Bool :=
  timeEntryFormErrors cin cout == []

/-!
### Invariants
-/

/-- Number of active (`clock_out IS NULL`) entries of one user. -/
def activeCount (db : Db) (userId : Nat) : Nat :=
  (db.entries.filter fun e => e.userId == userId && e.clockOut.isNone).length

/-- The single-active-session invariant: at most one open entry per
subject. -/
def SingleActive (db : Db) : Prop :=
  ∀ u : Nat, activeCount db u ≤ 1

/-!
## Claim theorems
-/

/-- C1 counterexample: the spec says entries with approvalStatus ∈
{approved, pending, null} block creation, so creating an entry that
overlaps an existing *pending* entry of the same user should fail with
`OVERLAP`.  The create-path overlap query filters on
`approval_status IS NULL OR approval_status = 'approved'`, so the pending
entry is ignored and the creation succeeds. -/
theorem createEntry_pending_does_not_block :
    (createManualEntry 1 50 150 200
        ⟨[⟨0, 1, 0, some 100, some true, some ApprovalStatus.pending⟩], [], 5⟩).1 =
      RouteResult.ok ⟨5, 1, 50, some 150, some true, some ApprovalStatus.pending⟩ ∧
    overlapsInterval 50 150 ⟨0, 1, 0, some 100, some true, some ApprovalStatus.pending⟩ 200 =
      true := by
  decide

/-- C2 counterexample: a successful clock-in is a mutating operation, yet
the clock-in route inserts no `time_entry_audit` row, contradicting
"every successful mutating operation appends exactly one AuditRecord". -/
theorem clockIn_appends_no_audit :
    (clockIn 1 0 ⟨[], [], 0⟩).1.isOk = true ∧
    (clockIn 1 0 ⟨[], [], 0⟩).2.audits = [] := by
  decide

/-- C3: evaluating the fallback-flag path on an entry that was automatic
(`is_manual = false`) shows the bug: `approval_status` becomes `pending`,
but `is_manual = COALESCE(is_manual, TRUE)` keeps the non-NULL `false`, so
the entry does **not** become manual — even though the route's own response
payload hardcodes `isManual: true` for the same entry. -/
theorem fallbackFlag_keeps_automatic_entry_not_manual :
    (fallbackFlag 7 1
        ⟨[⟨1, 7, 0, some 100, some false, some ApprovalStatus.approved⟩], [], 2⟩).1 =
      RouteResult.ok ⟨1, 7, 0, some 100, some false, some ApprovalStatus.pending⟩ ∧
    ((fallbackFlag 7 1
        ⟨[⟨1, 7, 0, some 100, some false, some ApprovalStatus.approved⟩], [], 2⟩).2.entries.map
      Entry.isManual) = [some false] := by
  decide

/-- C4 counterexample: a manual create request spanning 25 hours
(90,000,000 ms > 86,400,000 ms = 24h) succeeds at the backend and inserts
the entry; the claimed duration validation does not exist on the create
route. -/
theorem createEntry_accepts_25_hour_duration :
    (createManualEntry 1 0 90000000 100000000 ⟨[], [], 0⟩).1 =
      RouteResult.ok ⟨0, 1, 0, some 90000000, some true, some ApprovalStatus.pending⟩ ∧
    (createManualEntry 1 0 90000000 100000000 ⟨[], [], 0⟩).2.entries.length = 1 := by
  decide

/-- C5: under the interleaving check₁ · check₂ · write₁ · write₂ — possible
because the approval route runs its pending check and its status update as
two separate queries with no transaction or conditional `WHERE` clause —
both concurrent approval requests see `pending`, both write, and both
respond success, violating the required exactly-one-success outcome. -/
theorem approval_race_both_succeed :
    (runRace Decision.approved Decision.denied
        [RaceEvent.check1, RaceEvent.check2, RaceEvent.write1, RaceEvent.write2]).done1 =
      some true ∧
    (runRace Decision.approved Decision.denied
        [RaceEvent.check1, RaceEvent.check2, RaceEvent.write1, RaceEvent.write2]).done2 =
      some true := by
  decide

/-- C6 counterexample: user 1 has a completed entry (id 1) and an active
entry (id 2).  Updating entry 1 with a clock-in of 50 and no clock-out
passes every check (the ongoing-entry overlap query misses the active
entry because its clock-in lies after the submitted clock-in), succeeds,
and writes `clock_out = NULL` — leaving the user with two active entries. -/
theorem updateEntry_can_create_second_active_entry :
    activeCount
        ⟨[⟨1, 1, 200, some 300, some false, some ApprovalStatus.approved⟩,
          ⟨2, 1, 100, none, some false, some ApprovalStatus.approved⟩], [], 5⟩ 1 = 1 ∧
    (updateEntry 1 1 50 none 400
        ⟨[⟨1, 1, 200, some 300, some false, some ApprovalStatus.approved⟩,
          ⟨2, 1, 100, none, some false, some ApprovalStatus.approved⟩], [], 5⟩).1.isOk = true ∧
    activeCount
        (updateEntry 1 1 50 none 400
          ⟨[⟨1, 1, 200, some 300, some false, some ApprovalStatus.approved⟩,
            ⟨2, 1, 100, none, some false, some ApprovalStatus.approved⟩], [], 5⟩).2 1 = 2 := by
  decide

/-- C8 counterexample: for the reference date 2025-03-05, the server-side
payroll window for a weekly schedule starts on Monday 2025-03-03 (day of
week 1) with an exclusive end one week later, not on Sunday 2025-03-02 at
00:00:00.000 through Saturday 23:59:59.999 as the claim requires of every
period resolver in the program. -/
theorem serverPeriod_weekly_starts_monday :
    serverPeriodRange Schedule.weekly 2025 2 5 =
      (daysFromCivil 2025 3 3, daysFromCivil 2025 3 10) ∧
    dayOfWeek (daysFromCivil 2025 3 3) = 1 ∧
    (getWeeklyPeriod ⟨daysFromCivil 2025 3 5, 0⟩).startDT.day = daysFromCivil 2025 3 2 ∧
    daysFromCivil 2025 3 3 ≠ daysFromCivil 2025 3 2 := by
  decide

/-- C9 counterexample: entry 2 is manual, pending, completed, and the
update submits exactly its stored times — yet the update fails with
`OVERLAP` instead of succeeding, because the update-path overlap query
ignores approval status and the user also has a *denied* entry covering
the same interval (reachable: denied entries do not block creation). -/
theorem noop_update_can_fail_with_overlap :
    ((⟨[⟨1, 1, 1000, some 2000, some true, some ApprovalStatus.denied⟩,
        ⟨2, 1, 1000, some 2000, some true, some ApprovalStatus.pending⟩], [], 5⟩ : Db).entries.find?
      (fun e => e.id == 2 && e.userId == 1)) =
      some ⟨2, 1, 1000, some 2000, some true, some ApprovalStatus.pending⟩ ∧
    (updateEntry 1 2 1000 (some 2000) 5000
        ⟨[⟨1, 1, 1000, some 2000, some true, some ApprovalStatus.denied⟩,
          ⟨2, 1, 1000, some 2000, some true, some ApprovalStatus.pending⟩], [], 5⟩).1 =
      RouteResult.err ErrCode.OVERLAP := by
  decide

/-- C7: the payroll aggregation's overtime split and gross-pay formula,
exactly as the claim states them: with overtime disabled all hours are
regular; with it enabled regular hours cap at the threshold and the excess
is overtime; gross pay is regular·rate + overtime·rate·1.5.  Includes the
concrete scenario (rate 20, overtime enabled, 45 total hours, threshold 40
→ 40 regular, 5 overtime, 950.00 gross). -/
theorem computePayroll_spec (totalHours overtimeThreshold rate : ℚ) (overtimeEnabled : Bool) :
    (computePayroll totalHours overtimeEnabled overtimeThreshold rate).regularHours =
      (if overtimeEnabled then min totalHours overtimeThreshold else totalHours) ∧
    (computePayroll totalHours overtimeEnabled overtimeThreshold rate).overtimeHours =
      (if overtimeEnabled then max 0 (totalHours - overtimeThreshold) else 0) ∧
    (computePayroll totalHours overtimeEnabled overtimeThreshold rate).estGross =
      (computePayroll totalHours overtimeEnabled overtimeThreshold rate).regularHours * rate +
        (computePayroll totalHours overtimeEnabled overtimeThreshold rate).overtimeHours *
          rate * (3 / 2) ∧
    computePayroll 45 true 40 20 = ⟨45, 40, 5, 950, 20, true⟩ := by
  refine ⟨rfl, rfl, rfl, ?_⟩
  simp only [computePayroll]
  norm_num

/-- Backing up by `getDay()` days always lands on a Sunday. -/
theorem dayOfWeek_sub_dayOfWeek (d : Int) : dayOfWeek (d - dayOfWeek d) = 0 := by
  unfold dayOfWeek
  omega

/-- `new Date(y, m + 1, 0)` is the last day of 0-based month `m`: the
day-zero normalization of the next month steps back exactly to
`monthLength y m`. -/
theorem jsDay_zero_of_next_month (y m : Int) (hm0 : 0 ≤ m) (hm1 : m ≤ 11) :
    jsDay y (m + 1) 0 = jsDay y m (monthLength y m) := by
  interval_cases m
  all_goals norm_num [jsDay, daysFromCivil, monthLength, isLeap]
  all_goals try split_ifs with h
  all_goals
    try simp only [Bool.and_eq_true, beq_iff_eq, Bool.or_eq_true, bne_iff_ne, ne_eq,
      not_and, not_or] at h
  all_goals omega

/-- The server-side weekly window always starts on a Monday. -/
theorem serverWeekly_starts_monday (y m dom : Int) :
    dayOfWeek (serverPeriodRange Schedule.weekly y m dom).1 = 1 := by
  simp only [serverPeriodRange, dayOfWeek]
  omega

/-- C8 (amended): the frontend `PayPeriodCalculator` meets the claimed
boundaries — weekly periods run Sunday 00:00:00.000 through Saturday
23:59:59.999 of the reference week; bi-monthly periods are
[1st, 15th 23:59:59.999] when the day of month is ≤ 15 and
[16th, last-day 23:59:59.999] otherwise, the last day computed as day 0 of
the next month (so February 2024 ends on the 29th); monthly periods run
from the 1st through the last day.  The server-side payroll window does
**not** follow this scheme: its weekly window always starts on a Monday
(with an exclusive midnight end bound), and a bi-monthly schedule falls
into the bi-weekly default branch of its `switch`. -/
theorem payPeriodCalculator_boundaries (d : LocalDT) (y m dom : Int)
    (hm0 : 0 ≤ m) (hm1 : m ≤ 11) :
    (dayOfWeek (getWeeklyPeriod d).startDT.day = 0 ∧
      (getWeeklyPeriod d).startDT.ms = 0 ∧
      (getWeeklyPeriod d).endDT.day = (getWeeklyPeriod d).startDT.day + 6 ∧
      (getWeeklyPeriod d).endDT.ms = 86399999 ∧
      (getWeeklyPeriod d).startDT.day ≤ d.day ∧ d.day ≤ (getWeeklyPeriod d).endDT.day) ∧
    (dom ≤ 15 →
      getBiMonthlyPeriod y m dom = ⟨⟨jsDay y m 1, 0⟩, ⟨jsDay y m 15, 86399999⟩⟩) ∧
    (15 < dom →
      getBiMonthlyPeriod y m dom =
        ⟨⟨jsDay y m 16, 0⟩, ⟨jsDay y m (monthLength y m), 86399999⟩⟩) ∧
    getMonthlyPeriod y m = ⟨⟨jsDay y m 1, 0⟩, ⟨jsDay y m (monthLength y m), 86399999⟩⟩ ∧
    getBiMonthlyPeriod 2024 1 20 =
      ⟨⟨daysFromCivil 2024 2 16, 0⟩, ⟨daysFromCivil 2024 2 29, 86399999⟩⟩ ∧
    dayOfWeek (serverPeriodRange Schedule.weekly y m dom).1 = 1 ∧
    serverPeriodRange Schedule.bimonthly y m dom =
      serverPeriodRange Schedule.biweekly y m dom := by
  refine ⟨⟨dayOfWeek_sub_dayOfWeek d.day, rfl, rfl, rfl, ?_, ?_⟩, ?_, ?_, ?_, ?_,
    serverWeekly_starts_monday y m dom, rfl⟩
  · simp only [getWeeklyPeriod, dayOfWeek]
    omega
  · simp only [getWeeklyPeriod, dayOfWeek]
    omega
  · intro h
    simp only [getBiMonthlyPeriod, if_pos h]
  · intro h
    rw [getBiMonthlyPeriod, if_neg (not_le.mpr h), ← jsDay_zero_of_next_month y m hm0 hm1]
  · rw [getMonthlyPeriod, ← jsDay_zero_of_next_month y m hm0 hm1]
  · decide

/-- C8 witness: the boundary theorem applied at the reference date
2024-02-20 (month index 1, a leap February). -/
theorem payPeriodCalculator_boundaries_witness :
    getMonthlyPeriod 2024 1 =
      ⟨⟨jsDay 2024 1 1, 0⟩, ⟨jsDay 2024 1 (monthLength 2024 1), 86399999⟩⟩ ∧
    dayOfWeek (getWeeklyPeriod ⟨20000, 123⟩).startDT.day = 0 ∧
    getBiMonthlyPeriod 2024 1 20 =
      ⟨⟨daysFromCivil 2024 2 16, 0⟩, ⟨daysFromCivil 2024 2 29, 86399999⟩⟩ := by
  have h := payPeriodCalculator_boundaries ⟨20000, 123⟩ 2024 1 20 (by decide) (by decide)
  exact ⟨h.2.2.2.1, h.1.1, h.2.2.2.2.1⟩

/-- C10: error precedence of `PUT /entry/:id` once the entry is found —
the ordering check fires first, then the overlap check, and
`ACTIVE_EDIT_FORBIDDEN` is reachable only when both ordering and overlap
validation passed. -/
theorem updateEntry_error_precedence (db : Db) (u eid : Nat) (cin : Int) (cout : Option Int)
    (now : Int) (existing : Entry)
    (hfind : db.entries.find? (fun e => e.id == eid && e.userId == u) = some existing) :
    (clockOrderViolated cin cout = true →
      (updateEntry u eid cin cout now db).1 = .err .CLOCK_ORDER) ∧
    (clockOrderViolated cin cout = false →
      updateOverlapExists u eid cin cout now db = true →
      (updateEntry u eid cin cout now db).1 = .err .OVERLAP) ∧
    (clockOrderViolated cin cout = false →
      updateOverlapExists u eid cin cout now db = false →
      existing.clockOut = none →
      (updateEntry u eid cin cout now db).1 = .err .ACTIVE_EDIT_FORBIDDEN) ∧
    ((updateEntry u eid cin cout now db).1 = .err .ACTIVE_EDIT_FORBIDDEN →
      clockOrderViolated cin cout = false ∧ updateOverlapExists u eid cin cout now db = false) := by
  refine ⟨?_, ?_, ?_, ?_⟩
  · intro hord
    simp [updateEntry, hfind, hord]
  · intro hord hov
    simp [updateEntry, hfind, hord, hov]
  · intro hord hov hact
    simp [updateEntry, hfind, hord, hov, hact]
  · intro hres
    by_cases hord : clockOrderViolated cin cout = true
    · simp [updateEntry, hfind, hord] at hres
    · rw [Bool.not_eq_true] at hord
      by_cases hov : updateOverlapExists u eid cin cout now db = true
      · simp [updateEntry, hfind, hord, hov] at hres
      · rw [Bool.not_eq_true] at hov
        exact ⟨hord, hov⟩

/-- C10 witness: on an active entry, mis-ordered times yield `CLOCK_ORDER`,
and well-ordered non-overlapping times yield `ACTIVE_EDIT_FORBIDDEN`. -/
theorem updateEntry_error_precedence_witness :
    (updateEntry 1 1 100 (some 50) 200
        ⟨[⟨1, 1, 100, none, some false, some ApprovalStatus.approved⟩], [], 2⟩).1 =
      .err .CLOCK_ORDER ∧
    (updateEntry 1 1 600 (some 700) 200
        ⟨[⟨1, 1, 100, none, some false, some ApprovalStatus.approved⟩], [], 2⟩).1 =
      .err .ACTIVE_EDIT_FORBIDDEN := by
  refine ⟨(updateEntry_error_precedence
      ⟨[⟨1, 1, 100, none, some false, some ApprovalStatus.approved⟩], [], 2⟩ 1 1 100 (some 50) 200
      ⟨1, 1, 100, none, some false, some ApprovalStatus.approved⟩ (by decide)).1 (by decide),
    (updateEntry_error_precedence
      ⟨[⟨1, 1, 100, none, some false, some ApprovalStatus.approved⟩], [], 2⟩ 1 1 600 (some 700) 200
      ⟨1, 1, 100, none, some false, some ApprovalStatus.approved⟩ (by decide)).2.2.1
      (by decide) (by decide) rfl⟩

/-- C9 (amended): an update of a manual, pending, completed, well-ordered
entry that submits exactly the stored clock-in/clock-out, **and whose
stored interval does not trip the update-path overlap query against any
other entry of the user**, takes the no-op short circuit: it succeeds,
echoes the entry unchanged, and leaves the database (entries and audit
rows) untouched. -/
theorem noop_update_echoes (db : Db) (u eid : Nat) (existing : Entry) (c now : Int)
    (hfind : db.entries.find? (fun e => e.id == eid && e.userId == u) = some existing)
    (hman : existing.isManual = some true)
    (hpend : existing.approvalStatus = some ApprovalStatus.pending)
    (hout : existing.clockOut = some c)
    (horder : existing.clockIn < c)
    (hov : updateOverlapExists u eid existing.clockIn existing.clockOut now db = false) :
    updateEntry u eid existing.clockIn existing.clockOut now db = (.ok existing, db) := by
  rw [hout] at hov ⊢
  have hord : clockOrderViolated existing.clockIn (some c) = false := by
    simp only [clockOrderViolated, decide_eq_false_iff_not]
    omega
  have htc : timesChanged existing existing.clockIn (some c) = false := by
    simp [timesChanged, hout]
  simp [updateEntry, hfind, hord, hov, hout, htc, hman, hpend]

/-- C9 witness: the no-op theorem applied to a lone pending manual entry. -/
theorem noop_update_echoes_witness :
    updateEntry 1 2 1000 (some 2000) 5000
        ⟨[⟨2, 1, 1000, some 2000, some true, some ApprovalStatus.pending⟩], [], 5⟩ =
      (.ok ⟨2, 1, 1000, some 2000, some true, some ApprovalStatus.pending⟩,
        ⟨[⟨2, 1, 1000, some 2000, some true, some ApprovalStatus.pending⟩], [], 5⟩) :=
  noop_update_echoes ⟨[⟨2, 1, 1000, some 2000, some true, some ApprovalStatus.pending⟩], [], 5⟩
    1 2 ⟨2, 1, 1000, some 2000, some true, some ApprovalStatus.pending⟩ 2000 5000
    (by decide) rfl rfl rfl (by decide) (by decide)

/-- C1 (amended): on the create path an existing entry blocks iff its
approvalStatus is NULL or approved — overlapping *pending* (and denied)
entries do not block creation; on the update path every entry other than
the one being updated is considered regardless of approval status (so
denied entries do block updates), and the updated entry itself is
excluded. -/
theorem overlap_status_filter (db : Db) (u eid : Nat) (cin cout now : Int) (existing : Entry)
    (horder : cin < cout)
    (hfind : db.entries.find? (fun e => e.id == eid && e.userId == u) = some existing) :
    ((createManualEntry u cin cout now db).1 = .err .OVERLAP ↔
      ∃ e ∈ db.entries, e.userId = u ∧
        (e.approvalStatus = none ∨ e.approvalStatus = some ApprovalStatus.approved) ∧
        overlapsInterval cin cout e now = true) ∧
    ((updateEntry u eid cin (some cout) now db).1 = .err .OVERLAP ↔
      ∃ e ∈ db.entries, e.id ≠ eid ∧ e.userId = u ∧ overlapsInterval cin cout e now = true) := by
  have hno : ¬ (cout ≤ cin) := not_le.mpr horder
  constructor
  · have hres : (createManualEntry u cin cout now db).1 = .err .OVERLAP ↔
        db.entries.any (fun e =>
          e.userId == u && createBlockingStatus e && overlapsInterval cin cout e now) = true := by
      by_cases hany : db.entries.any (fun e =>
          e.userId == u && createBlockingStatus e && overlapsInterval cin cout e now) = true
      · simp [createManualEntry, hno, hany]
      · simp [createManualEntry, hno, hany]
    rw [hres, List.any_eq_true]
    constructor
    · rintro ⟨e, he, hc⟩
      simp only [Bool.and_eq_true, beq_iff_eq, createBlockingStatus, Bool.or_eq_true] at hc
      exact ⟨e, he, hc.1.1, hc.1.2, hc.2⟩
    · rintro ⟨e, he, h1, h2, h3⟩
      refine ⟨e, he, ?_⟩
      simp [createBlockingStatus, h1, h3]
      rcases h2 with h2 | h2 <;> simp [h2]
  · have hord : clockOrderViolated cin (some cout) = false := by
      simp only [clockOrderViolated, decide_eq_false_iff_not]
      omega
    have hres : (updateEntry u eid cin (some cout) now db).1 = .err .OVERLAP ↔
        updateOverlapExists u eid cin (some cout) now db = true := by
      by_cases hov : updateOverlapExists u eid cin (some cout) now db = true
      · simp [updateEntry, hfind, hord, hov]
      · simp [updateEntry, hfind, hord, hov]
        split_ifs <;> simp
    rw [hres]
    simp only [updateOverlapExists, List.any_eq_true, Bool.and_eq_true, Bool.not_eq_true',
      beq_iff_eq, beq_eq_false_iff_ne, ne_eq]
    constructor
    · rintro ⟨e, he, ⟨hne, hu⟩, hovl⟩
      exact ⟨e, he, hne, hu, hovl⟩
    · rintro ⟨e, he, hne, hu, hovl⟩
      exact ⟨e, he, ⟨hne, hu⟩, hovl⟩

/-- C1 witness: an approved overlapping entry makes creation fail with
`OVERLAP`, and the same entry (of any status) makes an update of another
entry fail with `OVERLAP`. -/
theorem overlap_status_filter_witness :
    (createManualEntry 1 50 150 200
        ⟨[⟨0, 1, 0, some 100, some false, some ApprovalStatus.approved⟩,
          ⟨9, 1, 500, some 600, some true, some ApprovalStatus.pending⟩], [], 10⟩).1 =
      .err .OVERLAP ∧
    (updateEntry 1 9 50 (some 150) 200
        ⟨[⟨0, 1, 0, some 100, some false, some ApprovalStatus.approved⟩,
          ⟨9, 1, 500, some 600, some true, some ApprovalStatus.pending⟩], [], 10⟩).1 =
      .err .OVERLAP := by
  have h := overlap_status_filter
    ⟨[⟨0, 1, 0, some 100, some false, some ApprovalStatus.approved⟩,
      ⟨9, 1, 500, some 600, some true, some ApprovalStatus.pending⟩], [], 10⟩
    1 9 50 150 200 ⟨9, 1, 500, some 600, some true, some ApprovalStatus.pending⟩
    (by decide) (by decide)
  exact ⟨h.1.mpr ⟨⟨0, 1, 0, some 100, some false, some ApprovalStatus.approved⟩,
      by decide, rfl, Or.inr rfl, by decide⟩,
    h.2.mpr ⟨⟨0, 1, 0, some 100, some false, some ApprovalStatus.approved⟩,
      by decide, by decide, rfl, by decide⟩⟩

/-- C4 (amended): the 24-hour duration limit is enforced only by the
frontend form validation, which rejects any span strictly over 24 hours;
the backend create and update routes perform no duration check and accept
such intervals whenever the ordering and overlap checks pass. -/
theorem duration_limit_frontend_only (cin cout : Int)
    (h1 : cin < cout) (h2 : cout - cin > 86400000) :
    timeEntryFormValid (some cin) (some cout) = false ∧
    (∀ (u : Nat) (now : Int) (db : Db),
      db.entries.any (fun e =>
        e.userId == u && createBlockingStatus e && overlapsInterval cin cout e now) = false →
      (createManualEntry u cin cout now db).1.isOk = true) ∧
    (∀ (u eid : Nat) (now : Int) (db : Db) (existing : Entry),
      db.entries.find? (fun e => e.id == eid && e.userId == u) = some existing →
      existing.clockOut.isSome = true →
      updateOverlapExists u eid cin (some cout) now db = false →
      (updateEntry u eid cin (some cout) now db).1.isOk = true) := by
  have hno : ¬ (cout ≤ cin) := not_le.mpr h1
  refine ⟨?_, ?_, ?_⟩
  · have hbig : (cout - cin : Int) > 24 * 3600000 := by omega
    simp [timeEntryFormValid, timeEntryFormErrors, hno, hbig]
    omega
  · intro u now db hov
    simp [createManualEntry, hno, hov, RouteResult.isOk]
  · intro u eid now db existing hfind hsome hov
    have hord : clockOrderViolated cin (some cout) = false := by
      simp only [clockOrderViolated, decide_eq_false_iff_not]
      omega
    have hact : existing.clockOut.isNone = false := by
      rw [Bool.eq_false_iff]
      intro hn
      rw [Option.isNone_iff_eq_none] at hn
      rw [hn] at hsome
      simp at hsome
    simp only [updateEntry, hfind, hord, hov, hact, Bool.false_eq_true, if_false]
    split_ifs <;> rfl

/-- C4 witness: a 25-hour interval is rejected by the frontend form but
accepted by both the backend create route and the backend update route. -/
theorem duration_limit_frontend_only_witness :
    timeEntryFormValid (some 0) (some 90000000) = false ∧
    (createManualEntry 1 0 90000000 100000000 ⟨[], [], 0⟩).1.isOk = true ∧
    (updateEntry 1 1 0 (some 90000000) 100000000
        ⟨[⟨1, 1, 5, some 10, some true, some ApprovalStatus.approved⟩], [], 2⟩).1.isOk = true := by
  have h := duration_limit_frontend_only 0 90000000 (by decide) (by decide)
  exact ⟨h.1, h.2.1 1 100000000 ⟨[], [], 0⟩ (by decide),
    h.2.2 1 1 100000000 ⟨[⟨1, 1, 5, some 10, some true, some ApprovalStatus.approved⟩], [], 2⟩
      ⟨1, 1, 5, some 10, some true, some ApprovalStatus.approved⟩ (by decide) (by decide)
      (by decide)⟩

/-- C2 (amended): manual create, approve/deny, and fallback-flag each
append exactly one audit row, and a state-changing update appends exactly
one while a no-op update leaves the database untouched; but clock-in,
clock-out, and delete — all successful mutating operations — append no
audit row at all. -/
theorem audit_rows_per_operation (u eid : Nat) (now cin cman : Int) (cout : Option Int)
    (d : Decision) (db : Db) :
    ((clockIn u now db).1.isOk = true → (clockIn u now db).2.audits = db.audits) ∧
    ((clockOut u now db).1.isOk = true → (clockOut u now db).2.audits = db.audits) ∧
    ((createManualEntry u cin cman now db).1.isOk = true →
      (createManualEntry u cin cman now db).2.audits.length = db.audits.length + 1) ∧
    ((updateEntry u eid cin cout now db).1.isOk = true →
      ((updateEntry u eid cin cout now db).2 = db ∨
        (updateEntry u eid cin cout now db).2.audits.length = db.audits.length + 1)) ∧
    ((approveOrDeny u eid d db).1.isOk = true →
      (approveOrDeny u eid d db).2.audits.length = db.audits.length + 1) ∧
    ((fallbackFlag u eid db).1.isOk = true →
      (fallbackFlag u eid db).2.audits.length = db.audits.length + 1) ∧
    ((deleteEntry u eid db).1.isOk = true → (deleteEntry u eid db).2.audits = db.audits) := by
  refine ⟨?_, ?_, ?_, ?_, ?_, ?_, ?_⟩
  · by_cases h : hasActiveEntry db u = true <;> simp [clockIn, h, RouteResult.isOk]
  · cases hf : db.entries.find? (fun e => e.userId == u && e.clockOut.isNone) <;>
      simp [clockOut, hf, RouteResult.isOk]
  · simp only [createManualEntry]
    split_ifs <;> simp [RouteResult.isOk]
  · cases hf : db.entries.find? (fun e => e.id == eid && e.userId == u) with
    | none => simp [updateEntry, hf, RouteResult.isOk]
    | some existing =>
      simp only [updateEntry, hf]
      split_ifs <;> simp [RouteResult.isOk]
  · cases hf : db.entries.find? (fun e => e.id == eid && e.isManual == some true) with
    | none => simp [approveOrDeny, hf, RouteResult.isOk]
    | some e =>
      simp only [approveOrDeny, hf]
      split_ifs <;> simp [RouteResult.isOk]
  · cases hf : db.entries.find? (fun e => e.id == eid && e.userId == u) <;>
      simp [fallbackFlag, hf, RouteResult.isOk]
  · cases hf : db.entries.find? (fun e => e.id == eid && e.userId == u) with
    | none => simp [deleteEntry, hf, RouteResult.isOk]
    | some e =>
      simp only [deleteEntry, hf]
      split_ifs <;> simp [RouteResult.isOk]

/-- C2 witness: a successful manual creation appends one audit row while a
successful clock-in appends none. -/
theorem audit_rows_per_operation_witness :
    (createManualEntry 1 0 100 200 ⟨[], [], 0⟩).2.audits.length = 0 + 1 ∧
    (clockIn 1 200 ⟨[], [], 0⟩).2.audits = [] := by
  have h := audit_rows_per_operation 1 1 200 0 100 none Decision.approved ⟨[], [], 0⟩
  exact ⟨h.2.2.1 (by decide), h.1 (by decide)⟩

/-- Number of active entries of one user, expressed through `countP`. -/
theorem activeCount_eq_countP (db : Db) (u : Nat) :
    activeCount db u = db.entries.countP (fun e => e.userId == u && e.clockOut.isNone) := by
  simp [activeCount, List.countP_eq_length_filter]

/-- C6 (amended): on a database whose entry ids are unique (the table's
primary key), clock-in while an active entry exists always fails with
`ALREADY_ACTIVE` and changes nothing, and clock-in, clock-out, manual
create, approve/deny, and delete all preserve the at-most-one-active
invariant.  The claim's quantification over *every* operation fails only
for UpdateEntry, which can write `clock_out = NULL` on a completed entry
while another entry is active and so produce a second active entry. -/
theorem singleActive_preserved (db : Db) (u eid : Nat) (now cin cman : Int) (d : Decision)
    (hids : (db.entries.map Entry.id).Nodup)
    (hsa : SingleActive db) :
    (hasActiveEntry db u = true → clockIn u now db = (.err .ALREADY_ACTIVE, db)) ∧
    SingleActive (clockIn u now db).2 ∧
    SingleActive (clockOut u now db).2 ∧
    SingleActive (createManualEntry u cin cman now db).2 ∧
    SingleActive (approveOrDeny u eid d db).2 ∧
    SingleActive (deleteEntry u eid db).2 := by
  refine ⟨?_, ?_, ?_, ?_, ?_, ?_⟩
  · intro hact
    simp [clockIn, hact]
  · by_cases hact : hasActiveEntry db u = true
    · simpa [clockIn, hact] using hsa
    · intro u'
      rw [activeCount_eq_countP]
      simp only [clockIn, hact, Bool.false_eq_true, if_false]
      rw [List.countP_append]
      by_cases hu : u' = u
      · subst hu
        have h0 : db.entries.countP (fun e => e.userId == u' && e.clockOut.isNone) = 0 := by
          rw [List.countP_eq_zero]
          unfold hasActiveEntry at hact
          rw [Bool.not_eq_true, List.any_eq_false] at hact
          exact hact
        simp [h0, List.countP_cons]
      · have : (u == u') = false := beq_eq_false_iff_ne.mpr (Ne.symm hu)
        simp [List.countP_cons, this]
        calc db.entries.countP (fun e => e.userId == u' && e.clockOut.isNone) =
            activeCount db u' := (activeCount_eq_countP db u').symm
          _ ≤ 1 := hsa u'
  · cases hf : db.entries.find? (fun e => e.userId == u && e.clockOut.isNone) with
    | none => simpa [clockOut, hf] using hsa
    | some e =>
      intro u'
      rw [activeCount_eq_countP]
      simp only [clockOut, hf]
      rw [List.countP_map]
      apply le_trans _ (le_trans (le_of_eq (activeCount_eq_countP db u').symm) (hsa u'))
      apply List.countP_mono_left
      intro x hx hpx
      simp only [Function.comp] at hpx
      by_cases hid : (x.id == e.id) = true
      · rw [if_pos hid] at hpx
        simp at hpx
      · rw [if_neg hid] at hpx
        exact hpx
  · simp only [createManualEntry]
    split_ifs with h1 h2
    · exact hsa
    · exact hsa
    · intro u'
      rw [activeCount_eq_countP]
      simp only []
      rw [List.countP_append]
      have : ((⟨db.nextId, u, cin, some cman, some true, some ApprovalStatus.pending⟩ :
          Entry).userId == u' && (some cman).isNone) = false := by
        simp
      simp [List.countP_cons, this]
      calc db.entries.countP (fun e => e.userId == u' && e.clockOut.isNone) =
          activeCount db u' := (activeCount_eq_countP db u').symm
        _ ≤ 1 := hsa u'
  · cases hf : db.entries.find? (fun e => e.id == eid && e.isManual == some true) with
    | none => simpa [approveOrDeny, hf] using hsa
    | some e =>
      simp only [approveOrDeny, hf]
      split_ifs with hst
      · exact hsa
      · intro u'
        rw [activeCount_eq_countP]
        simp only []
        rw [List.countP_map]
        have he_mem : e ∈ db.entries := List.mem_of_find?_eq_some hf
        have he_pred := List.find?_some hf
        have heid : e.id = eid := by
          simp only [Bool.and_eq_true, beq_iff_eq] at he_pred
          exact he_pred.1
        apply le_trans _ (le_trans (le_of_eq (activeCount_eq_countP db u').symm) (hsa u'))
        apply List.countP_mono_left
        intro x hx hpx
        simp only [Function.comp] at hpx
        by_cases hid : (x.id == eid) = true
        · have hxe : x = e := by
            apply List.inj_on_of_nodup_map hids hx he_mem
            rw [beq_iff_eq] at hid
            show x.id = e.id
            rw [hid, heid]
          rw [if_pos hid] at hpx
          subst hxe
          simpa using hpx
        · rw [if_neg hid] at hpx
          exact hpx
  · cases hf : db.entries.find? (fun e => e.id == eid && e.userId == u) with
    | none => simpa [deleteEntry, hf] using hsa
    | some e =>
      simp only [deleteEntry, hf]
      split_ifs with hact
      · exact hsa
      · intro u'
        rw [activeCount_eq_countP]
        simp only []
        exact le_trans ((List.filter_sublist _).countP_le _)
          (le_trans (le_of_eq (activeCount_eq_countP db u').symm) (hsa u'))

/-- C6 witness: with one active entry present, clock-in is refused and the
database is unchanged. -/
theorem singleActive_preserved_witness :
    clockIn 1 5 ⟨[⟨1, 1, 0, none, some false, some ApprovalStatus.approved⟩], [], 2⟩ =
      (.err .ALREADY_ACTIVE,
        ⟨[⟨1, 1, 0, none, some false, some ApprovalStatus.approved⟩], [], 2⟩) := by
  exact (singleActive_preserved
      ⟨[⟨1, 1, 0, none, some false, some ApprovalStatus.approved⟩], [], 2⟩ 1 1 5 0 100
      Decision.approved (by decide) (fun _ => List.length_filter_le _ _)).1 (by decide)
